import Mathlib

/-!
Shallow embedding of `pyzmail/generate.py` (module `pyzmail.generate`):
address/header formatting, MIME body building, message finalization
(envelope and Message-Id handling, payload serialization), the
`guess_mime_type` helper, and the two SMTP senders `send_mail2` /
`send_mail`.  Python byte/unicode strings are modelled as Lean `String`
(or `List Char` where character-level splitting is needed), Python `None`
as `Option.none`, raised exceptions as `Except.error`.  External stdlib
collaborators (`email.charset`, `email.utils`, `smtplib` class hierarchy)
are modelled explicitly where the claims depend on them; each such model
is marked in its doc comment.
-/

namespace Pyzmail

/-- Modelled from the spec: `pyzmail.utils.is_usascii` (the `utils` module is
not under `src/`; only `generate.py` imports it).  The spec (section 4.1) says
the formatter tests "whether name is representable in pure US-ASCII"; we model
this as every character having a code point below 128. -/
def is_usascii (s : String) : Bool :=
  s.data.all (fun c => c.toNat < 128)

/-- Content-Transfer-Encoding of a MIME leaf. -/
inductive CTE where
  | sevenBit
  | quotedPrintable
  | base64
  deriving DecidableEq, Repr

/-- Model of the Python stdlib table `email.charset.CHARSETS` (external
collaborator): the default body encoding chosen for a charset.  `us-ascii`
maps to 7bit, the latin charsets to quoted-printable, `utf-8` and unknown
charsets to base64. -/
def charsetBodyEncoding (charset : String) : CTE :=
  if charset = "us-ascii" then .sevenBit
  else if charset = "iso-8859-1" then .quotedPrintable
  else if charset = "iso-8859-15" then .quotedPrintable
  else .base64

/-- Default Content-Transfer-Encoding chosen by `email.mime.text.MIMEText`
(external collaborator): with an explicit charset the charset table decides;
with charset `None`, us-ascii is tried and utf-8 (base64) is used when the
content is not pure ASCII. -/
def mimeTextCTE (charset : Option String) (content : String) : CTE :=
  match charset with
  | some c => charsetBodyEncoding c
  | none => if is_usascii content then .sevenBit else .base64

/-- The charset parameter recorded on the Content-Type of a text part built by
`MIMEText` (external collaborator). -/
def mimeTextCharset (charset : Option String) (content : String) : Option String :=
  match charset with
  | some c => some c
  | none => if is_usascii content then some "us-ascii" else some "utf-8"

structure LeafInfo where
  maintype : String
  subtype : String
  charset : Option String
  cte : CTE
  content : String
  extraHeaders : List (String × String)
  deriving DecidableEq, Repr

/-- A MIME body-tree node: a leaf part or a multipart container. -/
inductive MimePart where
  | leaf (info : LeafInfo)
  | multi (subtype : String) (parts : List MimePart)

/-- Content-Transfer-Encoding of a leaf part (`none` for multiparts). -/
def partCTE : MimePart → Option CTE
  | .leaf i => some i.cte
  | .multi _ _ => none

/-- Model of `email.mime.text.MIMEText(content, subtype, charset)` (external
collaborator used at generate.py lines 136 and 367). -/
def MIMEText (content subtype : String) (charset : Option String) : MimePart :=
  .leaf { maintype := "text", subtype := subtype,
          charset := mimeTextCharset charset content,
          cte := mimeTextCTE charset content,
          content := content, extraHeaders := [] }

/-- generate.py lines 132-150, `build_mimetext_part`: without the
quoted-printable flag this is plain `MIMEText`; with it, a text part whose
body encoding is forced to quoted-printable regardless of the charset's
default choice. -/
def build_mimetext_part (content : String) (charset : Option String)
    (mime_subtype : String) (use_quoted_printable : Bool) : MimePart :=
  if !use_quoted_printable then
    MIMEText content mime_subtype charset
  else
    .leaf { maintype := "text", subtype := mime_subtype, charset := charset,
            cte := .quotedPrintable, content := content, extraHeaders := [] }

/-- generate.py lines 153-162, `build_mime_part`: text content goes through
`build_mimetext_part`; any other maintype becomes a `MIMEBase` part whose
payload is base64-encoded by `email.encoders.encode_base64`. -/
def build_mime_part (data : String) (maintype subtype : String)
    (charset : Option String) (use_quoted_printable : Bool) : MimePart :=
  if maintype = "text" then
    build_mimetext_part data charset subtype use_quoted_printable
  else
    .leaf { maintype := maintype, subtype := subtype, charset := none,
            cte := .base64, content := data, extraHeaders := [] }

/-- `email.message.Message.add_header` restricted to how generate.py uses it:
append one already-rendered header line to a leaf part. -/
def MimePart.addHeader (p : MimePart) (h : String × String) : MimePart :=
  match p with
  | .leaf i => .leaf { i with extraHeaders := i.extraHeaders ++ [h] }
  | .multi s parts => .multi s parts

/-- generate.py lines 165-184, the `Attachment` value type. -/
structure Attachment where
  data : String
  maintype : String := "application"
  subtype : String := "octet-stream"
  filename : Option String := none
  charset : Option String := none
  use_quoted_printable : Bool := false

/-- Rendered value of `add_header('Content-Disposition', 'attachment',
filename=fn)`: a `None` parameter value adds the bare parameter name,
otherwise the quoted filename is attached. -/
def attachmentDisposition (filename : Option String) : String :=
  match filename with
  | none => "attachment; filename"
  | some fn => "attachment; filename=\"" ++ fn ++ "\""

/-- generate.py lines 192-209, `Attachment.as_mime_part` (the Python-2-only
filename re-encoding branch is dead on Python 3 and omitted). -/
def Attachment.as_mime_part (a : Attachment) : MimePart :=
  (build_mime_part a.data a.maintype a.subtype a.charset a.use_quoted_printable).addHeader
    ("Content-Disposition", attachmentDisposition a.filename)

/-- generate.py lines 212-230, the `EmbeddedFile` value type. -/
structure EmbeddedFile where
  data : String
  maintype : String := "application"
  subtype : String := "octet-stream"
  content_id : Option String := none
  charset : Option String := none
  filename : Option String := none

/-- generate.py lines 249-262, `EmbeddedFile.as_mime_part`: always built
without the quoted-printable override, with a `Content-ID` header and an
`inline` disposition; the filename suffix is added only when the filename is
truthy.  `'<%s>' % None` in Python renders the text `None`. -/
def EmbeddedFile.as_mime_part (e : EmbeddedFile) : MimePart :=
  ((build_mime_part e.data e.maintype e.subtype e.charset false).addHeader
      ("Content-ID", "<" ++ (match e.content_id with
                             | some cid => cid
                             | none => "None") ++ ">")).addHeader
    ("Content-Disposition", "inline" ++ (match e.filename with
       | some fn => if fn ≠ "" then "; filename=\"" ++ fn ++ "\"" else ""
       | none => ""))

/-- One entry of `build_mail`'s `attachments` argument: a raw tuple, an
`Attachment` object, or an already-built MIME part (the `isinstance(part,
email.mime.base.MIMEBase)` pass-through). -/
inductive AttachInput where
  | tup (data maintype subtype : String) (filename charset : Option String)
  | obj (a : Attachment)
  | prebuilt (p : MimePart)

/-- generate.py lines 390-398: tuples become `Attachment(*part,
use_quoted_printable=use_quoted_printable)`, objects are used as given,
prebuilt parts are attached unmodified. -/
def AttachInput.toPart (use_quoted_printable : Bool) : AttachInput → MimePart
  | .tup d m s fn ch =>
    (Attachment.mk d m s fn ch use_quoted_printable).as_mime_part
  | .obj a => a.as_mime_part
  | .prebuilt p => p

/-- One entry of `build_mail`'s `embeddeds` argument. -/
inductive EmbedInput where
  | tup (data maintype subtype : String) (content_id charset filename : Option String)
  | obj (e : EmbeddedFile)
  | prebuilt (p : MimePart)

/-- generate.py lines 377-383: tuples become `EmbeddedFile(*part)`, objects
are used as given, prebuilt parts are attached unmodified. -/
def EmbedInput.toPart : EmbedInput → MimePart
  | .tup d m s cid ch fn => (EmbeddedFile.mk d m s cid ch fn).as_mime_part
  | .obj e => e.as_mime_part
  | .prebuilt p => p

/-- generate.py lines 353-402, `build_mail`: the sequential construction with
the mutable `main` variable, translated statement by statement.  `if text:`
and `if html:` test for `None` (a tuple, even with empty content, is truthy);
`if embeddeds:` / `if attachments:` test for the empty sequence. -/
def build_mail (text html : Option (String × String))
    (attachments : List AttachInput) (embeddeds : List EmbedInput)
    (use_quoted_printable : Bool) : MimePart :=
  let text_part := text.map
    (fun tc => build_mimetext_part tc.1 (some tc.2) "plain" use_quoted_printable)
  let html_part := html.map
    (fun hc => build_mimetext_part hc.1 (some hc.2) "html" use_quoted_printable)
  let main : MimePart :=
    match text_part, html_part with
    | none, none => MIMEText "" "plain" (some "us-ascii")
    | some tp, some hp => .multi "alternative" [tp, hp]
    | some tp, none => tp
    | none, some hp => hp
  let main := if embeddeds.isEmpty then main
    else .multi "related" (main :: embeddeds.map EmbedInput.toPart)
  if attachments.isEmpty then main
  else .multi "mixed" (main :: attachments.map (AttachInput.toPart use_quoted_printable))

/-- Definition following the spec's words (section 4.2 Message Builder), to be
compared with `build_mail`: the body core is the empty us-ascii text/plain
leaf when neither text nor HTML is given, the single leaf when one is given,
a multipart/alternative of text then html when both are; a multipart/related
wrapper is added exactly when embedded files are present and a
multipart/mixed wrapper exactly when attachments are present, each appending
the converted entries in caller order after the current body. -/
def specBodyTree (text html : Option (String × String))
    (attachments : List AttachInput) (embeddeds : List EmbedInput)
    (use_quoted_printable : Bool) : MimePart :=
  let core : MimePart :=
    match text, html with
    | none, none => MIMEText "" "plain" (some "us-ascii")
    | some t, none => build_mimetext_part t.1 (some t.2) "plain" use_quoted_printable
    | none, some h => build_mimetext_part h.1 (some h.2) "html" use_quoted_printable
    | some t, some h =>
      .multi "alternative"
        [build_mimetext_part t.1 (some t.2) "plain" use_quoted_printable,
         build_mimetext_part h.1 (some h.2) "html" use_quoted_printable]
  let withRelated :=
    if embeddeds.isEmpty then core
    else .multi "related" (core :: embeddeds.map EmbedInput.toPart)
  if attachments.isEmpty then withRelated
  else .multi "mixed"
    (withRelated :: attachments.map (AttachInput.toPart use_quoted_printable))

/-- An address as accepted by `format_addresses` and `complete_mail`: a bare
mailbox string or a `(display-name, mailbox)` pair. -/
inductive PyAddr where
  | bare (s : String)
  | pair (name mailbox : String)
  deriving DecidableEq

/-- Characters of Python's `email.utils.specialsre` class
(external collaborator `email.utils.formataddr`). -/
def isSpecialChar (c : Char) : Bool :=
  c ∈ ['[', ']', '\\', '(', ')', '<', '>', '@', ',', ':', ';', '"', '.']

def hasSpecials (s : String) : Bool := s.data.any isSpecialChar

/-- Python's `email.utils.escapesre` substitution: a backslash is prefixed to
every backslash or double quote. -/
def escapeNameChars (s : String) : String :=
  String.mk (s.data.flatMap (fun c => if c = '\\' ∨ c = '"' then ['\\', c] else [c]))

/-- Model of `email.utils.formataddr` (external collaborator) on a pure
US-ASCII name: empty name yields the bare address, otherwise the name (quoted
when it contains specials) followed by the angle-bracketed address. -/
def formataddr (name mailbox : String) : String :=
  if name = "" then mailbox
  else
    let quotes := if hasSpecials name then "\"" else ""
    quotes ++ escapeNameChars name ++ quotes ++ " <" ++ mailbox ++ ">"

/-- Header fragments produced for one `(name, mailbox)` pair, generate.py
lines 114-127: an ASCII name goes through `formataddr` and is appended with
charset us-ascii; a non-ASCII name is appended under the header's default
charset and the angle-bracketed mailbox is appended as a separate us-ascii
fragment. -/
def pairChunks (charset : String) (name mailbox : String) : List (String × String) :=
  if is_usascii name then [(formataddr name mailbox, "us-ascii")]
  else [(name, charset), ("<" ++ mailbox ++ ">", "us-ascii")]

/-- Header fragments for one address, generate.py lines 109-127.  The Python
tuple unpacking `name, addr = address` succeeds for a *string* of length
exactly two (a string is a sequence of its characters), so such a bare string
takes the pair branch with its two characters; any other bare string raises
`ValueError` and is appended as a single us-ascii fragment. -/
def addrChunks (charset : String) : PyAddr → List (String × String)
  | .pair name mailbox => pairChunks charset name mailbox
  | .bare s =>
    match s.data with
    | [c1, c2] => pairChunks charset (String.mk [c1]) (String.mk [c2])
    | _ => [(s, "us-ascii")]

/-- generate.py lines 103-129, `format_addresses`, at the granularity of the
`email.header.Header.append` calls it makes: each address contributes its
fragments, with a `(",", "us-ascii")` separator fragment before every address
but the first (the `if i != 0` branch of the enumerate loop). -/
def format_addresses (charset : String) (addresses : List PyAddr) :
    List (String × String) :=
  match addresses with
  | [] => []
  | a :: rest =>
    addrChunks charset a ++
      rest.flatMap (fun x => (",", "us-ascii") :: addrChunks charset x)

/-- Hexadecimal digit (upper case), used by the Q-encoding model. -/
def hexDigit (n : Nat) : Char :=
  if n < 10 then Char.ofNat (48 + n) else Char.ofNat (55 + n)

/-- Simplified model of RFC 2047 Q-encoding of one character (external
collaborator `email.header`); only determinism matters to the claims. -/
def qEncodeChar (c : Char) : List Char :=
  if c = ' ' then ['_']
  else if c.toNat < 128 ∧ c ≠ '=' ∧ c ≠ '?' ∧ c ≠ '_' then [c]
  else ['=', hexDigit (c.toNat / 16 % 16), hexDigit (c.toNat % 16)]

/-- Encoded form of one header fragment: us-ascii fragments are emitted
verbatim, anything else as an RFC 2047 encoded word in its charset (external
collaborator `email.header.Header.encode`). -/
def encodeChunk : String × String → String
  | (s, charset) =>
    if charset = "us-ascii" then s
    else "=?" ++ charset ++ "?q?" ++ String.mk (s.data.flatMap qEncodeChar) ++ "?="

/-- Join a list of strings with a separator between consecutive entries. -/
def joinBy (sep : String) : List String → String
  | [] => ""
  | [x] => x
  | x :: y :: xs => x ++ sep ++ joinBy sep (y :: xs)

/-- Model of `email.header.Header.encode` as exercised here (external
collaborator): the encoded fragments joined with single spaces; RFC line
wrapping is not modelled (all claim inputs fit on one line).  An empty header
encodes to the empty string. -/
def headerEncode (chunks : List (String × String)) : String :=
  joinBy " " (chunks.map encodeChunk)

/-- generate.py lines 490-494, the local helper `getaddr`: the second
component of a tuple, a non-tuple unchanged. -/
def getaddr : PyAddr → String
  | .pair _ mailbox => mailbox
  | .bare s => s

/-- Python `sender[1]`: the second tuple component for a pair; for a bare
string, its second character as a one-character string (an `IndexError` when
the string is shorter). -/
def pyIndexOne : PyAddr → Except String PyAddr
  | .pair _ mailbox => .ok (.bare mailbox)
  | .bare s =>
    match s.data[1]? with
    | some c => .ok (.bare (String.mk [c]))
    | none => .error "IndexError"

/-- generate.py line 496: `mail_from = getaddr(sender[1])`. -/
def complete_mail_mail_from (sender : PyAddr) : Except String String :=
  (pyIndexOne sender).map getaddr

/-- generate.py lines 497-499: `rcpt_to` is the mailbox parts of recipients,
then cc, then bcc, duplicates kept, order preserved. -/
def complete_mail_rcpt_to (recipients cc bcc : List PyAddr) : List String :=
  recipients.map getaddr ++ cc.map getaddr ++ bcc.map getaddr

/-- The per-call random material of `email.utils.make_msgid` (external
collaborator): the decimal renderings of `int(time.time()*100)`,
`os.getpid()` and `random.getrandbits(64)`, and the local host name appended
by Python 2's `make_msgid` (equivalently `socket.getfqdn()`). -/
structure Nonce where
  timevalStr : List Char
  pidStr : List Char
  randintStr : List Char
  hostname : List Char

/-- Model of `email.utils.make_msgid(idstring)` (external collaborator):
`'<%d.%d.%d.%s@%s>'`-shaped, the idstring part present only when given. -/
def make_msgid (n : Nonce) (idstring : Option (List Char)) : List Char :=
  let idpart := match idstring with | none => [] | some s => '.' :: s
  '<' :: (n.timevalStr ++ '.' :: n.pidStr ++ '.' :: n.randintStr ++ idpart
          ++ '@' :: n.hostname) ++ ['>']

/-- Python `s.rsplit(sep, 1)[0]`: everything before the last occurrence of
the separator, the whole string when the separator is absent. -/
def rsplitBeforeLast (sep : Char) (s : List Char) : List Char :=
  if s.contains sep then (((s.reverse).dropWhile (fun c => c ≠ sep)).drop 1).reverse
  else s

/-- The text after the last occurrence of the separator (the whole string
when the separator is absent). -/
def afterLast (sep : Char) (s : List Char) : List Char :=
  ((s.reverse).takeWhile (fun c => c ≠ sep)).reverse

/-- generate.py lines 521-542, the Message-Id computation of `complete_mail`:
a falsy seed (None or the empty string) yields no id at all; otherwise
`make_msgid(seed)` is generated and, when the seed contains an `@`, the
automatically appended `@hostname` suffix is cut off with
`msg_id.rsplit('@', 1)[0] + '>'`.  The `Message-Id` header is written exactly
when the result is not `none` (line 542 sits inside the else branch). -/
def complete_mail_msg_id (n : Nonce) (message_id_string : Option (List Char)) :
    Option (List Char) :=
  match message_id_string with
  | none => none
  | some s =>
    if s = [] then none
    else
      let msg_id := make_msgid n (some s)
      if s.contains '@' then some (rsplitBeforeLast '@' msg_id ++ ['>'])
      else some msg_id

/-- The domain portion of an angle-bracketed message id: the text between the
last `@` and the closing `>`. -/
def msgidDomain (s : List Char) : List Char := afterLast '@' s.dropLast

/-- Model of `email.utils.formatdate` (external collaborator): only its
determinism in the timestamp matters to the claims, so the rendering is kept
schematic. -/
def formatdate (t : Nat) : String := "(rfc-date " ++ toString t ++ ")"

/-- The arguments of `complete_mail` (generate.py lines 405-416); extra
headers are modelled as plain string values (the `email.header.Header`
instance case encodes identically on both runs of any one call). -/
structure CompleteMailArgs where
  message : MimePart
  sender : PyAddr
  recipients : List PyAddr
  cc : List PyAddr
  bcc : List PyAddr
  subject : String
  default_charset : String
  message_id_string : Option String
  date : Option Nat
  headers : List (String × String)

mutual
/-- Serialization of a body tree by `Message.as_string` (external
collaborator), with the randomly generated multipart boundary supplied as a
parameter — the boundary is the serializer's only source of randomness. -/
def renderPart (boundary : String) : MimePart → String
  | .leaf i =>
    "Content-Type: " ++ i.maintype ++ "/" ++ i.subtype
      ++ (match i.charset with
          | some c => "; charset=\"" ++ c ++ "\""
          | none => "")
      ++ "\nContent-Transfer-Encoding: "
      ++ (match i.cte with
          | .sevenBit => "7bit"
          | .quotedPrintable => "quoted-printable"
          | .base64 => "base64")
      ++ "\n"
      ++ joinBy "" (i.extraHeaders.map (fun h => h.1 ++ ": " ++ h.2 ++ "\n"))
      ++ "\n" ++ i.content
  | .multi st parts =>
    "Content-Type: multipart/" ++ st ++ "; boundary=\"" ++ boundary ++ "\"\n"
      ++ renderParts boundary parts
      ++ "\n--" ++ boundary ++ "--\n"

def renderParts (boundary : String) : List MimePart → String
  | [] => ""
  | p :: ps =>
    "\n--" ++ boundary ++ "\n" ++ renderPart boundary p ++ renderParts boundary ps
end

/-- generate.py lines 501-548: the ordered header fields `complete_mail`
stamps onto the message.  `To`/`Cc` are omitted for empty lists, the date
falls back to the current time when the argument is falsy (`None` or `0`),
the Message-Id entry exists exactly when the seed is truthy, and every extra
header value is encoded with the default charset. -/
def complete_mail_headerList (a : CompleteMailArgs) (n : Nonce) (now : Nat) :
    List (String × String) :=
  [("From", headerEncode (format_addresses a.default_charset [a.sender]))]
  ++ (if a.recipients ≠ [] then
        [("To", headerEncode (format_addresses a.default_charset a.recipients))]
      else [])
  ++ (if a.cc ≠ [] then
        [("Cc", headerEncode (format_addresses a.default_charset a.cc))]
      else [])
  ++ [("Subject", encodeChunk (a.subject, a.default_charset))]
  ++ [("Date", formatdate (match a.date with
        | some d => if d = 0 then now else d
        | none => now))]
  ++ (match complete_mail_msg_id n (a.message_id_string.map String.data) with
      | some m => [("Message-Id", String.mk m)]
      | none => [])
  ++ a.headers.map (fun h => (h.1, encodeChunk (h.2, a.default_charset)))

/-- generate.py line 550: the serialized payload, headers then body, with the
per-call random material (`Nonce`, boundary) passed explicitly. -/
def complete_mail_payload (a : CompleteMailArgs) (n : Nonce) (now : Nat)
    (boundary : String) : String :=
  joinBy "" ((complete_mail_headerList a n now).map
    (fun h => h.1 ++ ": " ++ h.2 ++ "\n"))
  ++ renderPart boundary a.message

/-- Drop the Message-Id field from a header list (the part of the payload the
amended idempotence statement excludes). -/
def dropMsgId (hs : List (String × String)) : List (String × String) :=
  hs.filter (fun h => h.1 ≠ "Message-Id")

/-- Truthiness of an optional Python string: `None` and `''` are falsy. -/
def truthyStr : Option String → Bool
  | none => false
  | some s => s ≠ ""

/-- generate.py lines 265-273, `guess_mime_type`, with Python local-variable
semantics made explicit: the local `mime_type` is modelled as
`Option (Option String)` whose outer `none` means "never assigned", so that
reading it raises `UnboundLocalError`; it is assigned only when the file-like
object has a truthy `name` and `mimetypes.guess_type` (the oracle `guess`)
returns a truthy type.  The `if mime_type is None: mime_type = default_type`
branch is reachable only from a bound `None`, which never happens. -/
def guess_mime_type (fpName : Option String) (guess : String → Option String)
    (default_type : String) : Except String String :=
  let mime_type : Option (Option String) :=
    match fpName with
    | some fn =>
      if fn ≠ "" then
        match guess fn with
        | some g => if g ≠ "" then some (some g) else none
        | none => none
      else none
    | none => none
  match mime_type with
  | none => .error "UnboundLocalError: mime_type"
  | some mt => .ok (match mt with | none => default_type | some g => g)

/-- The exception classes involved in `send_mail`'s handler chain. -/
inductive ExcClass where
  | oserror
  | smtpException
  | smtpResponseException
  | smtpAuthenticationError
  | smtpRecipientsRefused
  | smtpSenderRefused
  | smtpDataError
  | smtpHeloError
  deriving DecidableEq

/-- Superclass chain (the class itself first) of each class on Python >= 3.4
(external collaborators `smtplib` and `socket`): `socket.error` is an alias
of `OSError`, and `smtplib.SMTPException` has been a subclass of `OSError`
since Python 3.4; `SMTPResponseException` subclasses `SMTPException`;
`SMTPAuthenticationError`, `SMTPSenderRefused`, `SMTPDataError` and
`SMTPHeloError` subclass `SMTPResponseException`; `SMTPRecipientsRefused`
subclasses `SMTPException` directly. -/
def ancestors : ExcClass → List ExcClass
  | .oserror => [.oserror]
  | .smtpException => [.smtpException, .oserror]
  | .smtpResponseException => [.smtpResponseException, .smtpException, .oserror]
  | .smtpAuthenticationError =>
    [.smtpAuthenticationError, .smtpResponseException, .smtpException, .oserror]
  | .smtpRecipientsRefused => [.smtpRecipientsRefused, .smtpException, .oserror]
  | .smtpSenderRefused =>
    [.smtpSenderRefused, .smtpResponseException, .smtpException, .oserror]
  | .smtpDataError =>
    [.smtpDataError, .smtpResponseException, .smtpException, .oserror]
  | .smtpHeloError =>
    [.smtpHeloError, .smtpResponseException, .smtpException, .oserror]

/-- Python `isinstance` over the modelled hierarchy. -/
def isInstanceOf (c target : ExcClass) : Bool := (ancestors c).contains target

/-- A concrete transport exception, with the data read by the handlers. -/
inductive SmtpExc where
  | socketError (txt : String)
  | authError (code : Nat) (msg : String)
  | recipientsRefused (rcpts : List String)
  | senderRefused (sender : String) (code : Nat) (msg : String)
  | dataError (code : Nat) (msg : String)
  | heloError (code : Nat) (msg : String)
  | smtpError (txt : String)
  deriving DecidableEq

def SmtpExc.cls : SmtpExc → ExcClass
  | .socketError _ => .oserror
  | .authError _ _ => .smtpAuthenticationError
  | .recipientsRefused _ => .smtpRecipientsRefused
  | .senderRefused _ _ _ => .smtpSenderRefused
  | .dataError _ _ => .smtpDataError
  | .heloError _ _ => .smtpHeloError
  | .smtpError _ => .smtpException

/-- Model of Python `str(e)` for these exceptions: response exceptions render
their `(code, msg)` argument tuple, the others their message text. -/
def SmtpExc.str : SmtpExc → String
  | .socketError t => t
  | .authError c m => "(" ++ toString c ++ ", " ++ m ++ ")"
  | .recipientsRefused r => "\x7b" ++ joinBy ", " r ++ "\x7d"
  | .senderRefused _ c m => "(" ++ toString c ++ ", " ++ m ++ ")"
  | .dataError c m => "(" ++ toString c ++ ", " ++ m ++ ")"
  | .heloError c m => "(" ++ toString c ++ ", " ++ m ++ ")"
  | .smtpError t => t

/-- The `', '.join(e.recipients.keys())` of the all-recipients-refused
handler. -/
def refusedKeys : SmtpExc → List String
  | .recipientsRefused r => r
  | _ => []

/-- The `e.sender` of the sender-refused handler. -/
def refusedSender : SmtpExc → String
  | .senderRefused s _ _ => s
  | _ => ""

/-- generate.py lines 734-766: the `except` chain of `send_mail` under the
Python >= 3.4 class hierarchy.  The first clause whose class matches the
raised exception handles it and produces its message; an exception no clause
matches propagates (`none`). -/
def send_mail_handle (smtp_host : String) (smtp_port : Nat) (e : SmtpExc) :
    Option String :=
  if isInstanceOf e.cls .oserror then
    some ("server " ++ smtp_host ++ ":" ++ toString smtp_port
          ++ " not responding: " ++ e.str)
  else if isInstanceOf e.cls .smtpAuthenticationError then
    some ("authentication error: " ++ e.str)
  else if isInstanceOf e.cls .smtpRecipientsRefused then
    some ("all recipients refused: " ++ joinBy ", " (refusedKeys e))
  else if isInstanceOf e.cls .smtpSenderRefused then
    some ("sender refused: " ++ refusedSender e)
  else if isInstanceOf e.cls .smtpDataError then
    some ("SMTP protocol mismatch: " ++ e.str)
  else if isInstanceOf e.cls .smtpHeloError then
    some ("server didn\x27t reply properly to the HELO greeting: " ++ e.str)
  else if isInstanceOf e.cls .smtpException then
    some ("SMTP error: " ++ e.str)
  else none

/-- The rejection mapping `smtplib.SMTP.sendmail` returns: refused recipient
to (code, message). -/
def RejectMap := List (String × Nat × String)

instance : DecidableEq RejectMap := by
  unfold RejectMap
  infer_instance

/-- generate.py lines 656-766, `send_mail`, as a function of `send_mail2`'s
outcome: a normal result is passed through, a raised exception is converted
to its friendly string by the handler chain, and an unmatched exception
propagates. -/
def send_mail (smtp_host : String) (smtp_port : Nat)
    (outcome : Except SmtpExc RejectMap) :
    Except SmtpExc (String ⊕ RejectMap) :=
  match outcome with
  | .ok ret => .ok (.inr ret)
  | .error e =>
    match send_mail_handle smtp_host smtp_port e with
    | some s => .ok (.inl s)
    | none => .error e

/-- The SMTP operations `send_mail2` can attempt, in the order it attempts
them. -/
inductive SmtpAction where
  | connect
  | starttls
  | login
  | sendmail
  | quit
  deriving DecidableEq

/-- `smtp_mode` of `send_mail2`. -/
inductive SmtpMode where
  | normal
  | ssl
  | tls
  deriving DecidableEq

/-- Behavior of one concrete SMTP session (the `smtplib.SMTP` collaborator):
for each operation, whether it raises and what `sendmail` returns. -/
structure SmtpSession where
  connectExc : Option SmtpExc
  starttlsExc : Option SmtpExc
  loginExc : Option SmtpExc
  sendmailResult : Except SmtpExc RejectMap
  quitExc : Option SmtpExc

/-- The sendmail phase of `send_mail2`, generate.py lines 645-653:
`try: ret = smtp.sendmail(...)` with `finally: try: smtp.quit() except: pass`.
The quit attempt is recorded in the log on both outcomes; its own exception
is swallowed (the result never consults `quitExc`), so it can never replace
the sendmail result or exception. -/
def send_mail2_send (s : SmtpSession) (log : List SmtpAction) :
    Except SmtpExc RejectMap × List SmtpAction :=
  match s.sendmailResult with
  | .ok ret => (.ok ret, log ++ [.sendmail, .quit])
  | .error e => (.error e, log ++ [.sendmail, .quit])

/-- The authentication phase of `send_mail2`, generate.py lines 637-644:
`smtp.login` is called only when both credentials are truthy; an exception
propagates immediately (no quit). -/
def send_mail2_auth (has_credentials : Bool) (s : SmtpSession)
    (log : List SmtpAction) : Except SmtpExc RejectMap × List SmtpAction :=
  if has_credentials then
    match s.loginExc with
    | some e => (.error e, log ++ [.login])
    | none => send_mail2_send s (log ++ [.login])
  else send_mail2_send s log

/-- generate.py lines 630-653, `send_mail2`, as a trace over a session
behavior: the returned value (or propagated exception) together with the
ordered list of operations attempted.  Connection (`SMTP_SSL` for ssl mode,
`SMTP` otherwise) and, in tls mode, `starttls` happen before any
`try`/`finally`, so their exceptions propagate without a quit attempt. -/
def send_mail2 (smtp_mode : SmtpMode) (has_credentials : Bool)
    (s : SmtpSession) : Except SmtpExc RejectMap × List SmtpAction :=
  match s.connectExc with
  | some e => (.error e, [.connect])
  | none =>
    if smtp_mode = .tls then
      match s.starttlsExc with
      | some e => (.error e, [.connect, .starttls])
      | none => send_mail2_auth has_credentials s [.connect, .starttls]
    else send_mail2_auth has_credentials s [.connect]

/-- Concrete finalization arguments (fixed date, fixed message-id seed) used
to exercise the idempotence claim. -/
def idemArgs : CompleteMailArgs :=
  { message := MIMEText "Hello world" "plain" (some "us-ascii"),
    sender := .pair "Me" "me@foo.com",
    recipients := [.pair "Him" "him@bar.com"],
    cc := [], bcc := [],
    subject := "the subject",
    default_charset := "iso-8859-1",
    message_id_string := some "pyzmail",
    date := some 1313558269,
    headers := [("User-Agent", "pyzmail")] }

/-- The same arguments with no message-id seed. -/
def idemArgsNoSeed : CompleteMailArgs :=
  { idemArgs with message_id_string := none }

/-- Random material of the first `make_msgid` call. -/
def idemNonce1 : Nonce :=
  { timevalStr := "131355826900".data, pidStr := "4242".data,
    randintStr := "11111111111111111111".data,
    hostname := "mail.internal".data }

/-- Random material of the second `make_msgid` call: same timestamp and pid,
a fresh 64-bit random number. -/
def idemNonce2 : Nonce :=
  { timevalStr := "131355826900".data, pidStr := "4242".data,
    randintStr := "22222222222222222222".data,
    hostname := "mail.internal".data }

/-! Theorems -/

/-- C5: for every combination of optional text, optional html, attachment
list and embedded-file list, `build_mail` returns exactly the spec's body
tree — multipart/mixed wrapping multipart/related wrapping
multipart/alternative wrapping the text/html leaves, each wrapper present
exactly when its inputs are given (alternative iff both text and html,
related iff embeddeds nonempty, mixed iff attachments nonempty) — and with
neither text nor html the body is the empty text/plain leaf with charset
us-ascii, so every message has a body. -/
theorem build_mail_eq_specBodyTree :
    (∀ (text html : Option (String × String)) (attachments : List AttachInput)
        (embeddeds : List EmbedInput) (use_quoted_printable : Bool),
      build_mail text html attachments embeddeds use_quoted_printable
        = specBodyTree text html attachments embeddeds use_quoted_printable)
    ∧ (∀ use_quoted_printable : Bool,
      build_mail none none [] [] use_quoted_printable
        = .leaf { maintype := "text", subtype := "plain",
                  charset := some "us-ascii", cte := .sevenBit,
                  content := "", extraHeaders := [] }) := by
  constructor
  · intro text html attachments embeddeds qp
    cases text <;> cases html <;> simp [build_mail, specBodyTree]
  · intro qp
    rfl

/-- C7: a text leaf built with the quoted-printable flag has
Content-Transfer-Encoding quoted-printable whatever the charset (and hence
whatever the charset's default best-fit choice would have been), and every
non-text leaf built from an `Attachment` or an `EmbeddedFile` is base64
encoded unconditionally. -/
theorem quoted_printable_override_and_base64 :
    (∀ (content : String) (charset : Option String) (subtype : String),
       partCTE (build_mimetext_part content charset subtype true)
         = some .quotedPrintable)
    ∧ (∀ a : Attachment, a.maintype ≠ "text" →
         partCTE a.as_mime_part = some .base64)
    ∧ (∀ e : EmbeddedFile, e.maintype ≠ "text" →
         partCTE e.as_mime_part = some .base64) := by
  refine ⟨fun content charset subtype => rfl, fun a ha => ?_, fun e he => ?_⟩
  · simp [Attachment.as_mime_part, build_mime_part, ha, MimePart.addHeader,
      partCTE]
  · simp [EmbeddedFile.as_mime_part, build_mime_part, he, MimePart.addHeader,
      partCTE]

/-- Witness for C7 at concrete inputs: a quoted-printable text part over
iso-8859-1 (whose default would also be quoted-printable) and over utf-8
(whose default is base64), an image attachment, an embedded zip. -/
theorem quoted_printable_override_and_base64_witness :
    partCTE (build_mimetext_part "Hello" (some "utf-8") "plain" true)
      = some .quotedPrintable
    ∧ partCTE (Attachment.as_mime_part
        { data := "GIF89a", maintype := "image", subtype := "gif" })
      = some .base64
    ∧ partCTE (EmbeddedFile.as_mime_part
        { data := "PK", maintype := "application", subtype := "zip" })
      = some .base64 :=
  ⟨quoted_printable_override_and_base64.1 "Hello" (some "utf-8") "plain",
   quoted_printable_override_and_base64.2.1
     { data := "GIF89a", maintype := "image", subtype := "gif" } (by decide),
   quoted_printable_override_and_base64.2.2
     { data := "PK", maintype := "application", subtype := "zip" } (by decide)⟩

/-- C1, evaluation at the failing input: under the Python >= 3.4 exception
hierarchy (socket.error is OSError and smtplib.SMTPException subclasses
OSError) the first `except (socket.error,)` clause of `send_mail` catches an
`SMTPAuthenticationError` too, so the friendly wrapper classifies an
authentication failure as "server ... not responding" and never as the
authentication-error category. -/
theorem send_mail_auth_error_misclassified :
    send_mail "smtp.example.com" 25 (.error (.authError 535 "auth failed"))
      = .ok (.inl
          "server smtp.example.com:25 not responding: (535, auth failed)")
    ∧ send_mail_handle "smtp.example.com" 25 (.authError 535 "auth failed")
      ≠ some ("authentication error: "
              ++ SmtpExc.str (.authError 535 "auth failed")) := by
  exact ⟨rfl, by decide⟩

/-- C2 counterexample: when authentication fails, `send_mail2` propagates the
exception without ever attempting `quit` — the `try`/`finally` that performs
the quit only wraps the `sendmail` call, and connect/starttls/login run
before it.  This refutes the claim that a graceful session termination is
attempted on every exit path including failed authentication. -/
theorem send_mail2_no_quit_on_login_failure :
    (send_mail2 .normal true
      { connectExc := none, starttlsExc := none,
        loginExc := some (.authError 535 "bad credentials"),
        sendmailResult := .ok [], quitExc := none }).2.contains .quit = false
    ∧ (send_mail2 .normal true
      { connectExc := none, starttlsExc := none,
        loginExc := some (.authError 535 "bad credentials"),
        sendmailResult := .ok [], quitExc := none }).1
      = .error (.authError 535 "bad credentials") :=
  ⟨rfl, rfl⟩

/-- Helper: the sendmail phase always attempts quit and returns exactly the
sendmail outcome, whatever the quit behavior. -/
theorem send_mail2_send_spec (s : SmtpSession) (log : List SmtpAction) :
    (send_mail2_send s log).2.contains SmtpAction.quit = true
    ∧ (send_mail2_send s log).1 = s.sendmailResult := by
  cases hr : s.sendmailResult <;> simp [send_mail2_send, hr]

/-- Helper: the authentication phase, when login succeeds or is skipped,
reaches the sendmail phase. -/
theorem send_mail2_auth_spec (has_credentials : Bool) (s : SmtpSession)
    (hl : has_credentials = true → s.loginExc = none) (log : List SmtpAction) :
    (send_mail2_auth has_credentials s log).2.contains SmtpAction.quit = true
    ∧ (send_mail2_auth has_credentials s log).1 = s.sendmailResult := by
  cases has_credentials with
  | false => simpa [send_mail2_auth] using send_mail2_send_spec s log
  | true =>
    have hln := hl rfl
    simpa [send_mail2_auth, hln] using send_mail2_send_spec s (log ++ [.login])

/-- C2 amended: on every exit of the sendmail phase — that is, whenever the
connection, the STARTTLS upgrade (tls mode only) and the authentication have
succeeded — a quit is attempted, quit errors are swallowed, and the call
returns exactly the sendmail outcome (a quit-time error never masks it); but
when connection, STARTTLS or login fails, the exception propagates with no
quit attempt. -/
theorem send_mail2_quit_on_sendmail_paths (smtp_mode : SmtpMode)
    (has_credentials : Bool) (s : SmtpSession)
    (hc : s.connectExc = none)
    (hs : smtp_mode = .tls → s.starttlsExc = none)
    (hl : has_credentials = true → s.loginExc = none) :
    (send_mail2 smtp_mode has_credentials s).2.contains SmtpAction.quit = true
    ∧ (send_mail2 smtp_mode has_credentials s).1 = s.sendmailResult := by
  unfold send_mail2
  rw [hc]
  by_cases hm : smtp_mode = .tls
  · rw [if_pos hm, hs hm]
    exact send_mail2_auth_spec has_credentials s hl _
  · rw [if_neg hm]
    exact send_mail2_auth_spec has_credentials s hl _

/-- Witness for C2's amended theorem: a tls session with credentials where
sendmail fails and quit itself also fails — quit is still attempted and the
sendmail error is still the result. -/
theorem send_mail2_quit_on_sendmail_paths_witness :
    (send_mail2 .tls true
      { connectExc := none, starttlsExc := none, loginExc := none,
        sendmailResult := .error (.dataError 554 "rejected"),
        quitExc := some (.smtpError "quit broke") }).2.contains
          SmtpAction.quit = true
    ∧ (send_mail2 .tls true
      { connectExc := none, starttlsExc := none, loginExc := none,
        sendmailResult := .error (.dataError 554 "rejected"),
        quitExc := some (.smtpError "quit broke") }).1
      = .error (.dataError 554 "rejected") :=
  send_mail2_quit_on_sendmail_paths .tls true
    { connectExc := none, starttlsExc := none, loginExc := none,
      sendmailResult := .error (.dataError 554 "rejected"),
      quitExc := some (.smtpError "quit broke") }
    rfl (fun _ => rfl) (fun _ => rfl)

/-- C3, evaluation at the failing input: `complete_mail` computes
`mail_from = getaddr(sender[1])`, so for the bare-string sender
`'sender@site.example'` (the form the repository's own test passes) the
mailbox sent to the SMTP host is the string's second character `"e"`, not
the sender's mailbox part; for a (name, mailbox) pair the result is correct,
and `rcpt_to` is the mailbox parts of recipients ++ cc ++ bcc in order. -/
theorem complete_mail_envelope_bare_sender :
    complete_mail_mail_from (.bare "sender@site.example") = .ok "e"
    ∧ "e" ≠ "sender@site.example"
    ∧ complete_mail_mail_from (.pair "Me" "me@foo.com") = .ok "me@foo.com"
    ∧ complete_mail_rcpt_to
        [.bare "recipient@site.example"] [.pair "Her" "her@bar.com"]
        [.bare "hidden@bar.com", .bare "her@bar.com"]
      = ["recipient@site.example", "her@bar.com", "hidden@bar.com",
         "her@bar.com"] :=
  ⟨rfl, by decide, rfl, rfl⟩

/-- C10: whenever the file-like object has no truthy `name` or the name
yields no truthy guessed type, `guess_mime_type` raises
`UnboundLocalError` instead of returning its `default_type`; and every
normal return value comes from the `mimetypes.guess_type` oracle, never from
the default (the `mime_type is None` branch is unreachable). -/
theorem guess_mime_type_unbound_local :
    (∀ (fpName : Option String) (guess : String → Option String)
        (default_type : String),
       (∀ fn, fpName = some fn → fn ≠ "" → truthyStr (guess fn) = false) →
       guess_mime_type fpName guess default_type
         = .error "UnboundLocalError: mime_type")
    ∧ (∀ (fpName : Option String) (guess : String → Option String)
        (default_type r : String),
       guess_mime_type fpName guess default_type = .ok r →
       ∃ fn, fpName = some fn ∧ fn ≠ "" ∧ guess fn = some r ∧ r ≠ "") := by
  constructor
  · intro fpName guess dflt h
    cases fpName with
    | none => rfl
    | some fn =>
      by_cases hfn : fn = ""
      · subst hfn
        simp [guess_mime_type]
      · have hfalse := h fn rfl hfn
        cases hg : guess fn with
        | none => simp [guess_mime_type, hfn, hg]
        | some g =>
          rw [hg] at hfalse
          simp [truthyStr] at hfalse
          simp [guess_mime_type, hfn, hg, hfalse]
  · intro fpName guess dflt r h
    cases fpName with
    | none => simp [guess_mime_type] at h
    | some fn =>
      by_cases hfn : fn = ""
      · subst hfn
        simp [guess_mime_type] at h
      · cases hg : guess fn with
        | none => simp [guess_mime_type, hfn, hg] at h
        | some g =>
          by_cases hge : g = ""
          · subst hge
            simp [guess_mime_type, hfn, hg] at h
          · refine ⟨fn, rfl, hfn, ?_, ?_⟩
            · simp [guess_mime_type, hfn, hg, hge] at h
              rw [hg, h]
            · simp [guess_mime_type, hfn, hg, hge] at h
              rw [← h]
              exact hge

/-- Witness for C10: a file-like object with no name attribute, and one whose
name guesses to nothing, both raise; a name that guesses returns the guess. -/
theorem guess_mime_type_unbound_local_witness :
    guess_mime_type none (fun _ => none) "application/octet-stream"
      = .error "UnboundLocalError: mime_type"
    ∧ guess_mime_type (some "README") (fun _ => none)
        "application/octet-stream"
      = .error "UnboundLocalError: mime_type" :=
  ⟨guess_mime_type_unbound_local.1 none (fun _ => none)
      "application/octet-stream" (fun fn hfn _ => by cases hfn),
   guess_mime_type_unbound_local.1 (some "README") (fun _ => none)
      "application/octet-stream" (fun fn _ _ => rfl)⟩

/-- Helper: every address contributes at least one header fragment. -/
theorem addrChunks_ne_nil (charset : String) (a : PyAddr) :
    addrChunks charset a ≠ [] := by
  cases a with
  | pair name mailbox =>
    simp only [addrChunks, pairChunks]
    split <;> simp
  | bare s =>
    simp only [addrChunks]
    split
    · simp only [pairChunks]
      split <;> simp
    · simp

/-- Helper: a fragment of `format_addresses` is the comma separator or comes
from one of the addresses. -/
theorem mem_format_addresses_cases {x : String × String} {charset : String}
    {addresses : List PyAddr} (h : x ∈ format_addresses charset addresses) :
    x = (",", "us-ascii") ∨ ∃ a ∈ addresses, x ∈ addrChunks charset a := by
  cases addresses with
  | nil => simp [format_addresses] at h
  | cons a rest =>
    rcases List.mem_append.mp h with h | h
    · exact Or.inr ⟨a, by simp, h⟩
    · rcases List.mem_flatMap.mp h with ⟨b, hb, hx⟩
      rcases List.mem_cons.mp hx with hx | hx
      · exact Or.inl hx
      · exact Or.inr ⟨b, by simp [hb], hx⟩

/-- Helper: every fragment of every address appears in the formatted
header. -/
theorem mem_format_addresses_of_mem {x : String × String} {charset : String}
    {addresses : List PyAddr} {a : PyAddr} (ha : a ∈ addresses)
    (hx : x ∈ addrChunks charset a) : x ∈ format_addresses charset addresses := by
  cases addresses with
  | nil => cases ha
  | cons b rest =>
    rcases List.mem_cons.mp ha with h | h
    · subst h
      exact List.mem_append_left _ hx
    · refine List.mem_append_right _ (List.mem_flatMap.mpr ⟨a, h, ?_⟩)
      exact List.mem_cons_of_mem _ hx

/-- C8: for address lists given entirely as (name, mailbox) pairs, the
mailbox is never re-encoded: every fragment carrying a charset other than
us-ascii is exactly the display-name of some non-ASCII pair (so a mailbox
never appears under the caller charset); a pure-ASCII name yields the
combined "name <mailbox>" fragment under us-ascii (never the caller
charset); a non-ASCII name is emitted under the caller charset while the
angle-bracketed mailbox is a separate us-ascii fragment. -/
theorem format_addresses_mailbox_never_reencoded (charset : String)
    (pairs : List (String × String)) :
    (∀ s c, (s, c) ∈ format_addresses charset
        (pairs.map (fun q => PyAddr.pair q.1 q.2)) →
      c ≠ "us-ascii" →
      ∃ p ∈ pairs, s = p.1 ∧ is_usascii p.1 = false ∧ c = charset)
    ∧ (∀ p ∈ pairs, is_usascii p.1 = true →
        (formataddr p.1 p.2, "us-ascii") ∈ format_addresses charset
          (pairs.map (fun q => PyAddr.pair q.1 q.2)))
    ∧ (∀ p ∈ pairs, is_usascii p.1 = false →
        (p.1, charset) ∈ format_addresses charset
          (pairs.map (fun q => PyAddr.pair q.1 q.2))
        ∧ ("<" ++ p.2 ++ ">", "us-ascii") ∈ format_addresses charset
          (pairs.map (fun q => PyAddr.pair q.1 q.2))) := by
  refine ⟨?_, ?_, ?_⟩
  · intro s c hmem hc
    rcases mem_format_addresses_cases hmem with h | ⟨a, ha, hx⟩
    · exact absurd (congrArg Prod.snd h) hc
    · rcases List.mem_map.mp ha with ⟨p, hp, rfl⟩
      simp only [addrChunks, pairChunks] at hx
      by_cases hu : is_usascii p.1
      · rw [if_pos hu] at hx
        rcases List.mem_singleton.mp hx with h
        exact absurd (congrArg Prod.snd h) hc
      · rw [if_neg hu] at hx
        rcases List.mem_cons.mp hx with h | h
        · exact ⟨p, hp, congrArg Prod.fst h,
            Bool.eq_false_iff.mpr hu, congrArg Prod.snd h⟩
        · exact absurd (congrArg Prod.snd (List.mem_singleton.mp h)) hc
  · intro p hp hu
    refine mem_format_addresses_of_mem (List.mem_map_of_mem _ hp) ?_
    simp [addrChunks, pairChunks, hu]
  · intro p hp hu
    constructor
    · refine mem_format_addresses_of_mem (List.mem_map_of_mem _ hp) ?_
      simp [addrChunks, pairChunks, hu]
    · refine mem_format_addresses_of_mem (List.mem_map_of_mem _ hp) ?_
      simp [addrChunks, pairChunks, hu]

/-- Witness for C8 on a two-pair list with one ASCII and one non-ASCII
display name under caller charset iso-8859-1. -/
theorem format_addresses_mailbox_never_reencoded_witness :
    ((formataddr "Foo" "foo@example.com", "us-ascii")
      ∈ format_addresses "iso-8859-1"
        ([("Foo", "foo@example.com"), ("Léo", "leo@example.com")].map
          (fun q => PyAddr.pair q.1 q.2)))
    ∧ (("Léo", "iso-8859-1")
      ∈ format_addresses "iso-8859-1"
        ([("Foo", "foo@example.com"), ("Léo", "leo@example.com")].map
          (fun q => PyAddr.pair q.1 q.2)))
    ∧ (("<" ++ "leo@example.com" ++ ">", "us-ascii")
      ∈ format_addresses "iso-8859-1"
        ([("Foo", "foo@example.com"), ("Léo", "leo@example.com")].map
          (fun q => PyAddr.pair q.1 q.2))) :=
  ⟨(format_addresses_mailbox_never_reencoded "iso-8859-1"
      [("Foo", "foo@example.com"), ("Léo", "leo@example.com")]).2.1
      ("Foo", "foo@example.com") (by decide) (by decide),
   ((format_addresses_mailbox_never_reencoded "iso-8859-1"
      [("Foo", "foo@example.com"), ("Léo", "leo@example.com")]).2.2
      ("Léo", "leo@example.com") (by decide) (by decide)).1,
   ((format_addresses_mailbox_never_reencoded "iso-8859-1"
      [("Foo", "foo@example.com"), ("Léo", "leo@example.com")]).2.2
      ("Léo", "leo@example.com") (by decide) (by decide)).2⟩

/-- Helper: `joinBy` distributes over the concatenation of two nonempty
lists. -/
theorem joinBy_append (sep : String) (a b : List String)
    (ha : a ≠ []) (hb : b ≠ []) :
    joinBy sep (a ++ b) = joinBy sep a ++ sep ++ joinBy sep b := by
  induction a with
  | nil => exact absurd rfl ha
  | cons x xs ih =>
    cases xs with
    | nil =>
      cases b with
      | nil => exact absurd rfl hb
      | cons y ys => simp [joinBy]
    | cons z zs =>
      have h := ih (by simp)
      simp only [List.cons_append] at h ⊢
      rw [joinBy, joinBy, h]
      simp [String.append_assoc]

/-- Helper: a space, a comma and a space amid a concatenation merge into the
single " , " separator. -/
theorem append_space_comma (a b : String) :
    a ++ " " ++ ("," ++ " " ++ b) = a ++ " , " ++ b := by
  apply String.ext
  simp only [String.data_append]
  simp [List.append_assoc]

/-- Helper: the encoded fragments of one address and of a comma-prefixed
tail, joined with spaces, form the " , "-separated list of per-address
encodings. -/
theorem joinBy_comma_flatMap (rest : List (List String)) :
    (∀ y ∈ rest, y ≠ []) → ∀ c, c ≠ [] →
      joinBy " " (c ++ rest.flatMap (fun x => "," :: x))
        = joinBy " , " (joinBy " " c :: rest.map (joinBy " ")) := by
  induction rest with
  | nil =>
    intro _ c hc
    simp [joinBy]
  | cons x rs ih =>
    intro hr c hc
    have hx : x ≠ [] := hr x (by simp)
    have hrs : ∀ y ∈ rs, y ≠ [] := fun y hy => hr y (by simp [hy])
    have ht : x ++ rs.flatMap (fun y => "," :: y) ≠ [] := by
      cases x with
      | nil => exact absurd rfl hx
      | cons a as => simp
    have hstep : c ++ (x :: rs).flatMap (fun y => "," :: y)
        = c ++ ("," :: (x ++ rs.flatMap (fun y => "," :: y))) := by
      simp
    rw [hstep, joinBy_append " " c _ hc (by simp)]
    have hcons : joinBy " " ("," :: (x ++ rs.flatMap (fun y => "," :: y)))
        = "," ++ " " ++ joinBy " " (x ++ rs.flatMap (fun y => "," :: y)) := by
      rcases List.exists_cons_of_ne_nil ht with ⟨h0, t0, he⟩
      rw [he, joinBy]
    rw [hcons, ih hrs x hx]
    show joinBy " " c ++ " " ++ ("," ++ " "
        ++ joinBy " , " (joinBy " " x :: rs.map (joinBy " ")))
      = joinBy " , "
          (joinBy " " c :: joinBy " " x :: rs.map (joinBy " "))
    rw [append_space_comma, joinBy]

/-- C9: `format_addresses` keeps the input order with exactly one separator
fragment between consecutive addresses: the encoded header is the
per-address encodings joined by space-comma-space, the empty list encodes to
the empty header value, and the two-pair test list encodes to
`Foo <foo@example.com> , Bar <bar@example.com>`. -/
theorem format_addresses_preserves_order (charset : String)
    (addresses : List PyAddr) :
    headerEncode (format_addresses charset []) = ""
    ∧ headerEncode (format_addresses charset addresses)
        = joinBy " , "
            (addresses.map (fun a => headerEncode (addrChunks charset a)))
    ∧ headerEncode (format_addresses "us-ascii"
        [.pair "Foo" "foo@example.com", .pair "Bar" "bar@example.com"])
        = "Foo <foo@example.com> , Bar <bar@example.com>" := by
  refine ⟨rfl, ?_, by decide⟩
  cases addresses with
  | nil => rfl
  | cons a rest =>
    show joinBy " " (List.map encodeChunk (addrChunks charset a
        ++ rest.flatMap (fun x => (",", "us-ascii") :: addrChunks charset x)))
      = joinBy " , " ((a :: rest).map
          (fun a => headerEncode (addrChunks charset a)))
    rw [List.map_append]
    have hfm : List.map encodeChunk
        (rest.flatMap (fun x => (",", "us-ascii") :: addrChunks charset x))
        = (rest.map (fun x => List.map encodeChunk (addrChunks charset x))).flatMap
            (fun y => "," :: y) := by
      rw [List.flatMap_map]
      induction rest with
      | nil => rfl
      | cons b bs ihb => simp [ihb, encodeChunk]
    rw [hfm, joinBy_comma_flatMap
      (rest.map (fun x => List.map encodeChunk (addrChunks charset x)))
      (by
        intro y hy
        rcases List.mem_map.mp hy with ⟨b, _, rfl⟩
        simpa using addrChunks_ne_nil charset b)
      (List.map encodeChunk (addrChunks charset a))
      (by simpa using addrChunks_ne_nil charset a)]
    simp only [headerEncode, List.map_cons, List.map_map]
    rfl

/-- Helper: `dropWhile` of "not the separator" over a separator-free list
followed by the separator stops exactly at the separator. -/
theorem dropWhile_ne_sep_append (sep : Char) (l r : List Char)
    (hl : ∀ c ∈ l, c ≠ sep) :
    (l ++ sep :: r).dropWhile (fun c => c ≠ sep) = sep :: r := by
  induction l with
  | nil => simp [List.dropWhile_cons]
  | cons x xs ih =>
    have hx : x ≠ sep := hl x (by simp)
    have hxs : ∀ c ∈ xs, c ≠ sep := fun c hc => hl c (by simp [hc])
    simp only [List.cons_append, List.dropWhile_cons]
    rw [if_pos (by simp [hx])]
    exact ih hxs

/-- Helper: `takeWhile` of "not the separator" over a separator-free list
followed by the separator takes exactly that list. -/
theorem takeWhile_ne_sep_append (sep : Char) (l r : List Char)
    (hl : ∀ c ∈ l, c ≠ sep) :
    (l ++ sep :: r).takeWhile (fun c => c ≠ sep) = l := by
  induction l with
  | nil => simp [List.takeWhile_cons]
  | cons x xs ih =>
    have hx : x ≠ sep := hl x (by simp)
    have hxs : ∀ c ∈ xs, c ≠ sep := fun c hc => hl c (by simp [hc])
    simp only [List.cons_append, List.takeWhile_cons]
    rw [if_pos (by simp [hx])]
    exact congrArg (x :: ·) (ih hxs)

/-- Helper: `rsplit(sep, 1)[0]` on a string whose final separator occurrence
is just before `b` returns everything before that separator. -/
theorem rsplitBeforeLast_append (sep : Char) (a b : List Char)
    (hb : ∀ c ∈ b, c ≠ sep) :
    rsplitBeforeLast sep (a ++ sep :: b) = a := by
  have hcont : (a ++ sep :: b).contains sep = true := by simp
  rw [rsplitBeforeLast, if_pos hcont, List.reverse_append, List.reverse_cons,
    List.append_assoc, List.singleton_append,
    dropWhile_ne_sep_append sep b.reverse a.reverse
      (fun c hc => hb c (List.mem_reverse.mp hc))]
  simp

/-- Helper: the text after the last separator occurrence. -/
theorem afterLast_append (sep : Char) (a b : List Char)
    (hb : ∀ c ∈ b, c ≠ sep) :
    afterLast sep (a ++ sep :: b) = b := by
  rw [afterLast, List.reverse_append, List.reverse_cons, List.append_assoc,
    List.singleton_append,
    takeWhile_ne_sep_append sep b.reverse a.reverse
      (fun c hc => hb c (List.mem_reverse.mp hc))]
  simp

/-- Helper: a list containing the separator splits at its last occurrence. -/
theorem exists_last_sep (sep : Char) (s : List Char)
    (h : s.contains sep = true) :
    ∃ u v, s = u ++ sep :: v ∧ ∀ c ∈ v, c ≠ sep := by
  induction s using List.reverseRecOn with
  | nil => simp at h
  | append_singleton a x ih =>
    by_cases hx : x = sep
    · exact ⟨a, [], by simp [hx], by simp⟩
    · have ha : a.contains sep = true := by
        simp only [List.contains_eq_any_beq] at h ⊢
        simp only [List.any_append, List.any_cons, List.any_nil,
          Bool.or_false] at h
        rcases Bool.or_eq_true_iff.mp h with h | h
        · exact h
        · exact absurd (beq_iff_eq.mp h).symm hx
      obtain ⟨u, v, huv, hv⟩ := ih ha
      refine ⟨u, v ++ [x], by simp [huv], ?_⟩
      intro c hc
      rcases List.mem_append.mp hc with hc | hc
      · exact hv c hc
      · rw [List.mem_singleton.mp hc]
        exact hx

/-- C6: for every message-id seed containing an `@` (split as `u@v` at its
last `@`) and every host name (which contains no `@`), the Message-Id
computed by `complete_mail` keeps the whole seed and ends right after it: its
domain portion is exactly the seed's part after `@`, with no
automatically-appended host-identifying suffix remaining; and with no seed
the computed Message-Id is `None` (so no Message-Id header is written, the
header assignment sitting in the same branch). -/
theorem complete_mail_msg_id_domain (n : Nonce) (u v : List Char)
    (hhost : ∀ c ∈ n.hostname, c ≠ '@')
    (hv : ∀ c ∈ v, c ≠ '@') :
    (∃ m, complete_mail_msg_id n (some (u ++ '@' :: v)) = some m
       ∧ msgidDomain m = v
       ∧ afterLast '@' (u ++ '@' :: v) = v)
    ∧ complete_mail_msg_id n none = none
    ∧ (∀ (a : CompleteMailArgs) (nn : Nonce) (now : Nat),
        a.message_id_string = none → a.headers = [] →
        ¬ "Message-Id" ∈ (complete_mail_headerList a nn now).map Prod.fst) := by
  refine ⟨?_, rfl, ?_⟩
  case refine_2 =>
    intro a nn now hseed hhdrs
    simp only [complete_mail_headerList, hseed, hhdrs, Option.map_none',
      complete_mail_msg_id, List.map_nil, List.append_nil, List.map_append]
    split <;> split <;> simp
  have hne : u ++ '@' :: v ≠ [] := by simp
  have hat : (u ++ '@' :: v).contains '@' = true := by simp
  have hmsg : make_msgid n (some (u ++ '@' :: v))
      = ('<' :: (n.timevalStr ++ '.' :: n.pidStr ++ '.' :: n.randintStr
          ++ '.' :: (u ++ '@' :: v)))
        ++ '@' :: (n.hostname ++ ['>']) := by
    simp [make_msgid, List.append_assoc]
  have hbfree : ∀ c ∈ n.hostname ++ ['>'], c ≠ '@' := by
    intro c hc
    rcases List.mem_append.mp hc with hc | hc
    · exact hhost c hc
    · rw [List.mem_singleton.mp hc]
      decide
  refine ⟨'<' :: (n.timevalStr ++ '.' :: n.pidStr ++ '.' :: n.randintStr
      ++ '.' :: (u ++ '@' :: v)) ++ ['>'], ?_, ?_, ?_⟩
  · rw [complete_mail_msg_id]
    rw [if_neg hne, if_pos hat, hmsg,
      rsplitBeforeLast_append '@' _ _ hbfree]
  · rw [msgidDomain, List.dropLast_concat]
    have hsplit : '<' :: (n.timevalStr ++ '.' :: n.pidStr ++ '.'
        :: n.randintStr ++ '.' :: (u ++ '@' :: v))
        = ('<' :: (n.timevalStr ++ '.' :: n.pidStr ++ '.' :: n.randintStr
            ++ '.' :: u)) ++ '@' :: v := by
      simp [List.append_assoc]
    rw [hsplit, afterLast_append '@' _ _ hv]
  · exact afterLast_append '@' u v hv

/-- Witness for C6: seed `foo@my.host.example` with internal host name
`mail.internal`; the resulting Message-Id's domain portion is exactly
`my.host.example`. -/
theorem complete_mail_msg_id_domain_witness :
    ((∃ m, complete_mail_msg_id idemNonce1
          (some ("foo".data ++ '@' :: "my.host.example".data)) = some m
        ∧ msgidDomain m = "my.host.example".data
        ∧ afterLast '@' ("foo".data ++ '@' :: "my.host.example".data)
            = "my.host.example".data)
      ∧ complete_mail_msg_id idemNonce1 none = none
      ∧ ¬ "Message-Id" ∈ (complete_mail_headerList
            { idemArgsNoSeed with headers := [] } idemNonce1 0).map Prod.fst)
    ∧ "foo".data ++ '@' :: "my.host.example".data
        = "foo@my.host.example".data :=
  ⟨⟨(complete_mail_msg_id_domain idemNonce1 "foo".data "my.host.example".data
      (by decide) (by decide)).1,
    (complete_mail_msg_id_domain idemNonce1 "foo".data "my.host.example".data
      (by decide) (by decide)).2.1,
    (complete_mail_msg_id_domain idemNonce1 "foo".data "my.host.example".data
      (by decide) (by decide)).2.2
      { idemArgsNoSeed with headers := [] } idemNonce1 0 rfl rfl⟩,
   by decide⟩

/-- C4 counterexample: two finalizations with byte-identical arguments
(fixed date, fixed message-id seed) and the *same* multipart boundary still
produce different payloads, because `email.utils.make_msgid` embeds fresh
random material (here a fresh `random.getrandbits(64)` value) into the
Message-Id header on every call — so the payloads are not byte-identical
except for boundary strings. -/
theorem complete_mail_payload_differs_beyond_boundaries :
    complete_mail_payload idemArgs idemNonce1 0 "===limit1=="
      ≠ complete_mail_payload idemArgs idemNonce2 0 "===limit1==" := by
  decide

/-- C4 amended: finalizing the same body with identical arguments twice
yields payloads that are byte-identical except for the boundary strings and
the Message-Id value (which embeds per-call random material); with no
message-id seed, equal boundaries give byte-identical payloads. -/
theorem complete_mail_payload_deterministic (a : CompleteMailArgs)
    (n1 n2 : Nonce) (now : Nat) (boundary : String) :
    dropMsgId (complete_mail_headerList a n1 now)
      = dropMsgId (complete_mail_headerList a n2 now)
    ∧ (a.message_id_string = none →
        complete_mail_payload a n1 now boundary
          = complete_mail_payload a n2 now boundary) := by
  constructor
  · simp only [dropMsgId, complete_mail_headerList, List.filter_append]
    cases h1 : complete_mail_msg_id n1 (a.message_id_string.map String.data)
      <;> cases h2 : complete_mail_msg_id n2 (a.message_id_string.map String.data)
      <;> simp
  · intro h
    simp [complete_mail_payload, complete_mail_headerList, h,
      complete_mail_msg_id]

/-- Witness for C4's amended theorem: with no message-id seed and equal
boundaries the two payloads coincide. -/
theorem complete_mail_payload_deterministic_witness :
    idemArgsNoSeed.message_id_string = none
    ∧ complete_mail_payload idemArgsNoSeed idemNonce1 0 "===limit1=="
        = complete_mail_payload idemArgsNoSeed idemNonce2 0 "===limit1==" :=
  ⟨rfl,
   (complete_mail_payload_deterministic idemArgsNoSeed idemNonce1 idemNonce2
      0 "===limit1==").2 rfl⟩

end Pyzmail
